import Mathlib

/-! Verification of the notepy note-index engine against its specification:
the embedded code is `notepy/zettelkasten/sql.py`, `notepy/cli/cli.py` and
`notepy/cli/git_wrapper.py`.

The SQLite-backed index is shallowly embedded: each table is a list of rows,
primary-key checks are explicit, and each `DBManager` method becomes a pure
function returning `Except`.  A Python `with sqlite3.connect(...)` block
commits on success and rolls back on an exception, so a method that raises is
modelled as `Except.error` with the caller keeping the pre-call state: an
error result means the index is exactly as before the call.

Two facts about the Python `sqlite3` module are reflected in the embedding:
first, no connection ever executes `PRAGMA foreign_keys = ON`, and SQLite
leaves foreign-key enforcement OFF by default, so the `ON DELETE CASCADE`
clauses declared in the schema never fire and foreign-key violations do not
raise; second, `conn.execute(sql)` on a statement with a `?` placeholder but
no supplied binding raises `sqlite3.ProgrammingError`.
-/

/-- A row of the `zettelkasten` main table:
`(zk_id, title, author, creation_date, last_changed)` with `PRIMARY KEY(zk_id)`.
Timestamps are modelled as natural numbers. -/
structure MainRow where
  zk_id : String
  title : String
  author : String
  creation_date : Nat
  last_changed : Nat
deriving DecidableEq, Repr

/-- A row of the `tags` table (`(tag, zk_id)`, `PRIMARY KEY(zk_id, tag)`) or of
the `links` table (`(link, zk_id)`, `PRIMARY KEY(zk_id, link)`): both are
value/owner pairs with the same key structure, so one row type embeds both. -/
structure AssocRow where
  value : String
  zk_id : String
deriving DecidableEq, Repr

/-- The contents of the three index tables (schema already created). -/
structure DBState where
  main : List MainRow
  tags : List AssocRow
  links : List AssocRow
deriving DecidableEq, Repr

/-- Errors surfaced by the embedded `DBManager` methods: `dbManagerException`
models the `DBManagerException("SQL error")` raised from a caught
`sqlite3.IntegrityError`; `programmingError` models an uncaught
`sqlite3.ProgrammingError` (wrong number of bindings). -/
inductive DBError where
  | dbManagerException
  | programmingError
deriving DecidableEq, Repr

/-- Errors raised by individual SQL statements. -/
inductive SqlError where
  | integrityError
deriving DecidableEq, Repr

/-- Embeds `INSERT INTO zettelkasten VALUES (?, ?, ?, ?, ?)`: fails with
`IntegrityError` when the primary key `zk_id` is already present. -/
def insertMain (table : List MainRow) (r : MainRow) : Except SqlError (List MainRow) :=
  if table.any (fun r0 => r0.zk_id == r.zk_id) then .error .integrityError
  else .ok (table ++ [r])

/-- Embeds `INSERT INTO tags VALUES (?, ?)` and `INSERT INTO links VALUES (?, ?)`:
fails with `IntegrityError` when the composite primary key `(zk_id, value)` is
already present. -/
def insertAssoc (table : List AssocRow) (r : AssocRow) : Except SqlError (List AssocRow) :=
  if table.any (fun r0 => r0.zk_id == r.zk_id && r0.value == r.value) then .error .integrityError
  else .ok (table ++ [r])

/-- Embeds `conn.executemany` of an insert statement: runs the single-row
insert over the payload in order, stopping at the first error. -/
def insertManyAssoc (table : List AssocRow) (rows : List AssocRow) :
    Except SqlError (List AssocRow) :=
  match rows with
  | [] => .ok table
  | r :: rest =>
    match insertAssoc table r with
    | .error e => .error e
    | .ok t => insertManyAssoc t rest

/-- Modelled from the spec: the `Note` model of `notepy/zettelkasten/notes.py`
is not under `src/`; these are the fields `sql.py` reads from a note
(`zk_id`, `title`, `author`, `date`, `tags`, `links`).  The data model of the
spec declares `tags` and `links` to be sets of strings, modelled here as lists
(freedom from duplicates is a hypothesis where it matters). -/
structure Note where
  zk_id : String
  title : String
  author : String
  date : Nat
  tags : List String
  links : List String
deriving DecidableEq, Repr

/-- Embeds `tags_payload = [(tag, note.zk_id) for tag in note.tags]`. -/
def tagsPayload (n : Note) : List AssocRow :=
  n.tags.map (fun tag => AssocRow.mk tag n.zk_id)

/-- Embeds `links_payload = [(link, note.zk_id) for link in note.links]`. -/
def linksPayload (n : Note) : List AssocRow :=
  n.links.map (fun link => AssocRow.mk link n.zk_id)

/-- Embeds `main_payload = (note.zk_id, note.title, note.author, note.date,
note.date)`. -/
def mainPayload (n : Note) : MainRow :=
  MainRow.mk n.zk_id n.title n.author n.date n.date

/-- Embeds `except sqlite3.IntegrityError as e: raise DBManagerException(...)`:
maps an `IntegrityError` escaping the transaction to `DBManagerException`. -/
def catchIntegrity (r : Except SqlError DBState) : Except DBError DBState :=
  match r with
  | .ok s => .ok s
  | .error .integrityError => .error .dbManagerException

/-- Embeds `DBManager.add_to_index`: one transaction inserting the main row,
then all tag rows, then all link rows; an `IntegrityError` rolls everything
back and is re-raised as `DBManagerException`. -/
def add_to_index (s : DBState) (n : Note) : Except DBError DBState :=
  catchIntegrity (
    match insertMain s.main (mainPayload n) with
    | .error e => .error e
    | .ok main =>
      match insertManyAssoc s.tags (tagsPayload n) with
      | .error e => .error e
      | .ok tags =>
        match insertManyAssoc s.links (linksPayload n) with
        | .error e => .error e
        | .ok links => .ok (DBState.mk main tags links))

/-- Embeds `DBManager.update_note_to_index`: one transaction running
`_UPDATE_MAIN_STMT` (which sets `title`, `author`, `last_changed` on the rows
whose `zk_id` matches; updating zero rows is not an error), then deleting the
tag and link rows owned by the given id, then reinserting the payloads.
`current_date` stands for `datetime.now()`. -/
def update_note_to_index (s : DBState) (n : Note) (current_date : Nat) :
    Except DBError DBState :=
  let main := s.main.map (fun r =>
    if r.zk_id == n.zk_id then
      MainRow.mk r.zk_id n.title n.author r.creation_date current_date
    else r)
  catchIntegrity (
    match insertManyAssoc (s.tags.filter (fun r => r.zk_id != n.zk_id)) (tagsPayload n) with
    | .error e => .error e
    | .ok tags =>
      match insertManyAssoc (s.links.filter (fun r => r.zk_id != n.zk_id)) (linksPayload n) with
      | .error e => .error e
      | .ok links => .ok (DBState.mk main tags links))

/-- Embeds `DBManager.delete_from_index`: runs only `_DELETE_MAIN_STMT`.
Because no connection enables `PRAGMA foreign_keys`, the `ON DELETE CASCADE`
declared on `tags` and `links` never fires: the tag and link tables are
untouched.  Deleting zero rows is not an error. -/
def delete_from_index (s : DBState) (zk_id : String) : Except DBError DBState :=
  .ok (DBState.mk (s.main.filter (fun r => r.zk_id != zk_id)) s.tags s.links)

/-- Embeds `conn.execute(_GET_LINKS_ID, params)`: the statement
`SELECT link FROM links WHERE zk_id = ?;` has one placeholder, so supplying any
other number of bindings raises `sqlite3.ProgrammingError`. -/
def executeGetLinksId (s : DBState) (params : List String) :
    Except DBError (List String) :=
  match params with
  | [zid] => .ok ((s.links.filter (fun r => r.zk_id == zid)).map (fun r => r.value))
  | _ => .error .programmingError

/-- Embeds `DBManager.get_links`: the source calls `conn.execute(_GET_LINKS_ID)`
WITHOUT binding `zk_id` (the parameter is never passed to the statement), and
no except clause catches the resulting `ProgrammingError`. -/
def get_links (s : DBState) (zk_id : String) : Except DBError (List String) :=
  executeGetLinksId s []

/-- Embeds `DBManager.list_notes`: `SELECT zk_id, title FROM zettelkasten;`. -/
def list_notes (s : DBState) : List (String × String) :=
  s.main.map (fun r => (r.zk_id, r.title))

/-- Schema-level state for `create_tables`: each of the three tables either
exists (with its rows) or does not. -/
structure SchemaState where
  main : Option (List MainRow)
  tags : Option (List AssocRow)
  links : Option (List AssocRow)
deriving DecidableEq, Repr

/-- Embeds `CREATE TABLE IF NOT EXISTS ...`: creates the table empty when
absent, leaves it untouched (rows included) when present; never errors. -/
def createTableIfNotExists {α : Type} (t : Option (List α)) : Option (List α) :=
  match t with
  | some rows => some rows
  | none => some []

/-- Embeds `DBManager.create_tables`: runs the three
`CREATE TABLE IF NOT EXISTS` statements in one transaction. -/
def create_tables (s : SchemaState) : SchemaState :=
  SchemaState.mk (createTableIfNotExists s.main) (createTableIfNotExists s.tags)
    (createTableIfNotExists s.links)

/-- Predicate: all three tables of the schema already exist. -/
def tablesExist (s : SchemaState) : Prop :=
  s.main.isSome ∧ s.tags.isSome ∧ s.links.isSome

instance (s : SchemaState) : Decidable (tablesExist s) := by
  unfold tablesExist; infer_instance

/-- One step of a reindex: insert a parsed note into the index being rebuilt;
a note whose insertion fails is skipped (the reindex does not abort). -/
def reindexInsert (s : DBState) (n : Note) : DBState :=
  match add_to_index s n with
  | .ok s2 => s2
  | .error _ => s

/-- The freshly rebuilt, empty index (after drop and recreate of the schema). -/
def emptyDB : DBState := DBState.mk [] [] []

/-- Modelled from the spec: `Zettelkasten.index_vault` (the sequential reindex;
`notepy/zettelkasten/zettelkasten.py` is not under `src/`) drops and recreates
the schema, then inserts every successfully parsed note in scan order. -/
def index_vault (notes : List Note) : DBState :=
  notes.foldl reindexInsert emptyDB

/-- Modelled from the spec: `Zettelkasten.multiprocess_index_vault` (the
parallel reindex, also not under `src/`) parses notes concurrently — so their
arrival order at the writer is an unspecified permutation of scan order — and
funnels all index writes through a single serialized writer.  The final state
is therefore a fold of the same single-writer insert over the arrival order. -/
def multiprocess_index_vault (arrival : List Note) : DBState :=
  arrival.foldl reindexInsert emptyDB

/-- A vault scan is well formed when note ids are pairwise distinct (the spec
makes `id` globally unique within a vault) and the tags and links of each note
are free of duplicates (the spec makes them sets). -/
def scanWF (notes : List Note) : Prop :=
  (notes.map Note.zk_id).Nodup ∧ ∀ n ∈ notes, n.tags.Nodup ∧ n.links.Nodup

instance (notes : List Note) : Decidable (scanWF notes) := by
  unfold scanWF; infer_instance

/-- The result of a finished external process: `returncode` and the captured
output (`stderr` is redirected into `stdout` by `run_and_handle`). -/
structure CompletedProcess where
  returncode : Int
  stdout : String
deriving DecidableEq, Repr

/-- The fixed part of the `GitException` message built by `run_and_handle`,
up to and including the blank line before the captured output. -/
def gitErrorHead (command : String) (returncode : Int) : String :=
  "Command \"" ++ command ++ "\" returned a non-zero exit status " ++
    toString returncode ++ ". Below is the full stderr:\n\n"

/-- The full `GitException` message of `run_and_handle`: the fixed head, the
process output, and — only when `comment` is nonempty — a trailing comment. -/
def gitErrorMessage (command : String) (returncode : Int) (stdout : String)
    (comment : String) : String :=
  if comment == "" then gitErrorHead command returncode ++ stdout
  else gitErrorHead command returncode ++ stdout ++ ("\n\n" ++ comment)

/-- Embeds `run_and_handle` from `notepy/cli/git_wrapper.py`: the spawned
process is external, so its result is an input.  A non-zero `returncode`
raises `GitException` (modelled as `Except.error` carrying the message) with
the diagnostic message; a zero `returncode` returns the completed process
unchanged. -/
def run_and_handle (command : String) (comment : String)
    (process_result : CompletedProcess) : Except String CompletedProcess :=
  if process_result.returncode != 0 then
    .error (gitErrorMessage command process_result.returncode
      process_result.stdout comment)
  else .ok process_result

/-- The parsed-argument fields read by the `reindex` subcommand handler. -/
structure ReindexArgs where
  no_multi_core : Bool
deriving DecidableEq, Repr

/-- Which `Zettelkasten` reindex method the handler invokes. -/
inductive IndexCall where
  | multiprocessIndexVault
  | indexVault
deriving DecidableEq, Repr

/-- Embeds `SubcommandsMixin.reindex` from `notepy/cli/cli.py`:
`if args.no_multi_core: my_zk.multiprocess_index_vault()
else: my_zk.index_vault()`. -/
def reindexDispatch (args : ReindexArgs) : IndexCall :=
  if args.no_multi_core then .multiprocessIndexVault else .indexVault

lemma insertMain_ok (table : List MainRow) (r : MainRow)
    (h : ∀ r0 ∈ table, r0.zk_id ≠ r.zk_id) :
    insertMain table r = .ok (table ++ [r]) := by
  have hc : table.any (fun r0 => r0.zk_id == r.zk_id) = false := by
    simp only [List.any_eq_false, beq_iff_eq]
    exact h
  unfold insertMain
  rw [hc]
  simp

lemma insertMain_error (table : List MainRow) (r : MainRow)
    (h : ∃ r0 ∈ table, r0.zk_id = r.zk_id) :
    insertMain table r = .error .integrityError := by
  have hc : table.any (fun r0 => r0.zk_id == r.zk_id) = true := by
    simp only [List.any_eq_true, beq_iff_eq]
    exact h
  unfold insertMain
  rw [hc]
  simp

lemma insertAssoc_ok (table : List AssocRow) (r : AssocRow)
    (h : ∀ r0 ∈ table, ¬(r0.zk_id = r.zk_id ∧ r0.value = r.value)) :
    insertAssoc table r = .ok (table ++ [r]) := by
  have hc : table.any (fun r0 => r0.zk_id == r.zk_id && r0.value == r.value) = false := by
    simp only [List.any_eq_false, Bool.and_eq_true, beq_iff_eq, not_and]
    intro r0 hr0 h1 h2
    exact h r0 hr0 ⟨h1, h2⟩
  unfold insertAssoc
  rw [hc]
  simp

lemma insertManyAssoc_ok (rows : List AssocRow) (table : List AssocRow)
    (hfresh : ∀ r ∈ rows, ∀ r0 ∈ table, ¬(r0.zk_id = r.zk_id ∧ r0.value = r.value))
    (hpair : rows.Pairwise (fun a b => ¬(a.zk_id = b.zk_id ∧ a.value = b.value))) :
    insertManyAssoc table rows = .ok (table ++ rows) := by
  induction rows generalizing table with
  | nil => simp [insertManyAssoc]
  | cons r rest ih =>
    rw [List.pairwise_cons] at hpair
    have h1 : insertAssoc table r = .ok (table ++ [r]) :=
      insertAssoc_ok table r (fun r0 hr0 => hfresh r (by simp) r0 hr0)
    have h2 : insertManyAssoc (table ++ [r]) rest = .ok ((table ++ [r]) ++ rest) := by
      apply ih
      · intro b hb r0 hr0
        rcases List.mem_append.mp hr0 with h | h
        · exact hfresh b (by simp [hb]) r0 h
        · have : r0 = r := by simpa using h
          subst this
          exact hpair.1 b hb
      · exact hpair.2
    show insertManyAssoc table (r :: rest) = _
    unfold insertManyAssoc
    rw [h1]
    show insertManyAssoc (table ++ [r]) rest = _
    rw [h2]
    simp

lemma tagsPayload_mem_zk_id (n : Note) (r : AssocRow) (h : r ∈ tagsPayload n) :
    r.zk_id = n.zk_id := by
  simp only [tagsPayload, List.mem_map] at h
  obtain ⟨t, _, rfl⟩ := h
  rfl

lemma linksPayload_mem_zk_id (n : Note) (r : AssocRow) (h : r ∈ linksPayload n) :
    r.zk_id = n.zk_id := by
  simp only [linksPayload, List.mem_map] at h
  obtain ⟨t, _, rfl⟩ := h
  rfl

lemma tagsPayload_pairwise (n : Note) (h : n.tags.Nodup) :
    (tagsPayload n).Pairwise (fun a b => ¬(a.zk_id = b.zk_id ∧ a.value = b.value)) := by
  unfold tagsPayload
  rw [List.pairwise_map]
  refine h.imp ?_
  intro a b hab hc
  exact hab hc.2

lemma linksPayload_pairwise (n : Note) (h : n.links.Nodup) :
    (linksPayload n).Pairwise (fun a b => ¬(a.zk_id = b.zk_id ∧ a.value = b.value)) := by
  unfold linksPayload
  rw [List.pairwise_map]
  refine h.imp ?_
  intro a b hab hc
  exact hab hc.2

lemma add_to_index_ok (s : DBState) (n : Note)
    (hmain : ∀ r ∈ s.main, r.zk_id ≠ n.zk_id)
    (htags : ∀ r ∈ s.tags, r.zk_id ≠ n.zk_id)
    (hlinks : ∀ r ∈ s.links, r.zk_id ≠ n.zk_id)
    (ht : n.tags.Nodup) (hl : n.links.Nodup) :
    add_to_index s n =
      .ok (DBState.mk (s.main ++ [mainPayload n]) (s.tags ++ tagsPayload n)
        (s.links ++ linksPayload n)) := by
  have h1 : insertMain s.main (mainPayload n) = .ok (s.main ++ [mainPayload n]) :=
    insertMain_ok _ _ hmain
  have h2 : insertManyAssoc s.tags (tagsPayload n) = .ok (s.tags ++ tagsPayload n) := by
    apply insertManyAssoc_ok
    · intro r hr r0 hr0 hc
      exact htags r0 hr0 (hc.1.trans (tagsPayload_mem_zk_id n r hr))
    · exact tagsPayload_pairwise n ht
  have h3 : insertManyAssoc s.links (linksPayload n) = .ok (s.links ++ linksPayload n) := by
    apply insertManyAssoc_ok
    · intro r hr r0 hr0 hc
      exact hlinks r0 hr0 (hc.1.trans (linksPayload_mem_zk_id n r hr))
    · exact linksPayload_pairwise n hl
  unfold add_to_index
  rw [h1, h2, h3]
  rfl

lemma add_to_index_conflict (s : DBState) (n : Note)
    (h : ∃ r ∈ s.main, r.zk_id = n.zk_id) :
    add_to_index s n = .error .dbManagerException := by
  have h1 : insertMain s.main (mainPayload n) = .error .integrityError :=
    insertMain_error _ _ h
  unfold add_to_index
  rw [h1]
  rfl

lemma insertAssoc_eq_of_ok (table t2 : List AssocRow) (r : AssocRow)
    (h : insertAssoc table r = .ok t2) : t2 = table ++ [r] := by
  unfold insertAssoc at h
  by_cases hc : table.any (fun r0 => r0.zk_id == r.zk_id && r0.value == r.value) = true
  · rw [if_pos hc] at h
    cases h
  · rw [if_neg hc] at h
    cases h
    rfl

lemma insertManyAssoc_eq_of_ok (rows : List AssocRow) (table t2 : List AssocRow)
    (h : insertManyAssoc table rows = .ok t2) : t2 = table ++ rows := by
  induction rows generalizing table with
  | nil =>
    unfold insertManyAssoc at h
    cases h
    simp
  | cons r rest ih =>
    unfold insertManyAssoc at h
    cases hr : insertAssoc table r with
    | error e => rw [hr] at h; cases h
    | ok t1 =>
      rw [hr] at h
      have h1 := insertAssoc_eq_of_ok table t1 r hr
      subst h1
      have := ih (table ++ [r]) h
      simpa using this

lemma foldl_reindexInsert (l : List Note) (s : DBState)
    (hids : (l.map Note.zk_id).Nodup)
    (hwf : ∀ n ∈ l, n.tags.Nodup ∧ n.links.Nodup)
    (hm : ∀ r ∈ s.main, ∀ n ∈ l, r.zk_id ≠ n.zk_id)
    (htg : ∀ r ∈ s.tags, ∀ n ∈ l, r.zk_id ≠ n.zk_id)
    (hlk : ∀ r ∈ s.links, ∀ n ∈ l, r.zk_id ≠ n.zk_id) :
    l.foldl reindexInsert s =
      DBState.mk (s.main ++ l.map mainPayload)
        (s.tags ++ l.flatMap tagsPayload) (s.links ++ l.flatMap linksPayload) := by
  induction l generalizing s with
  | nil => simp
  | cons n rest ih =>
    rw [List.map_cons, List.nodup_cons] at hids
    have hstep : reindexInsert s n =
        DBState.mk (s.main ++ [mainPayload n]) (s.tags ++ tagsPayload n)
          (s.links ++ linksPayload n) := by
      unfold reindexInsert
      rw [add_to_index_ok s n (fun r hr => hm r hr n (by simp))
        (fun r hr => htg r hr n (by simp)) (fun r hr => hlk r hr n (by simp))
        (hwf n (by simp)).1 (hwf n (by simp)).2]
    rw [List.foldl_cons, hstep]
    rw [ih _ hids.2 (fun m hm2 => hwf m (by simp [hm2]))]
    · simp [List.append_assoc]
    · intro r hr m hmem
      rcases List.mem_append.mp hr with h | h
      · exact hm r h m (by simp [hmem])
      · have : r = mainPayload n := by simpa using h
        subst this
        show n.zk_id ≠ m.zk_id
        intro he
        exact hids.1 (he ▸ List.mem_map_of_mem Note.zk_id hmem)
    · intro r hr m hmem
      rcases List.mem_append.mp hr with h | h
      · exact htg r h m (by simp [hmem])
      · rw [tagsPayload_mem_zk_id n r h]
        intro he
        exact hids.1 (he ▸ List.mem_map_of_mem Note.zk_id hmem)
    · intro r hr m hmem
      rcases List.mem_append.mp hr with h | h
      · exact hlk r h m (by simp [hmem])
      · rw [linksPayload_mem_zk_id n r h]
        intro he
        exact hids.1 (he ▸ List.mem_map_of_mem Note.zk_id hmem)

lemma update_note_to_index_eq_of_ok (s : DBState) (n : Note) (d : Nat) (s2 : DBState)
    (h : update_note_to_index s n d = .ok s2) :
    s2 = DBState.mk
      (s.main.map (fun r =>
        if r.zk_id == n.zk_id then MainRow.mk r.zk_id n.title n.author r.creation_date d
        else r))
      (s.tags.filter (fun r => r.zk_id != n.zk_id) ++ tagsPayload n)
      (s.links.filter (fun r => r.zk_id != n.zk_id) ++ linksPayload n) := by
  unfold update_note_to_index at h
  cases h1 : insertManyAssoc (s.tags.filter (fun r => r.zk_id != n.zk_id)) (tagsPayload n) with
  | error e =>
    rw [h1] at h
    cases e
    simp [catchIntegrity] at h
  | ok t2 =>
    rw [h1] at h
    cases h2 : insertManyAssoc (s.links.filter (fun r => r.zk_id != n.zk_id)) (linksPayload n) with
    | error e =>
      rw [h2] at h
      cases e
      simp [catchIntegrity] at h
    | ok l2 =>
      rw [h2] at h
      simp only [catchIntegrity] at h
      cases h
      rw [insertManyAssoc_eq_of_ok _ _ _ h1, insertManyAssoc_eq_of_ok _ _ _ h2]

/-- C1 (amended): for every note `n` with duplicate-free tags and links, if
`n.zk_id` is already present in the primary table, `add_to_index` raises
`DBManagerException` (and, the transaction rolling back, the caller keeps the
unchanged state); if `n.zk_id` is absent from the primary table AND no
existing tag or link row carries `n.zk_id` (referential integrity for that
id), all rows — primary, tags and links — land as one unit. -/
theorem add_to_index_spec (s : DBState) (n : Note)
    (ht : n.tags.Nodup) (hl : n.links.Nodup) :
    ((∃ r ∈ s.main, r.zk_id = n.zk_id) →
      add_to_index s n = .error .dbManagerException) ∧
    ((∀ r ∈ s.main, r.zk_id ≠ n.zk_id) → (∀ r ∈ s.tags, r.zk_id ≠ n.zk_id) →
      (∀ r ∈ s.links, r.zk_id ≠ n.zk_id) →
      add_to_index s n = .ok (DBState.mk (s.main ++ [mainPayload n])
        (s.tags ++ tagsPayload n) (s.links ++ linksPayload n))) :=
  ⟨fun h => add_to_index_conflict s n h,
   fun h1 h2 h3 => add_to_index_ok s n h1 h2 h3 ht hl⟩

/-- C1 witness: inserting a fresh note into the empty index lands the primary
row, the tag row and the link row. -/
theorem add_to_index_spec_witness :
    add_to_index emptyDB (Note.mk "n1" "T" "A" 0 ["t1"] ["l1"]) =
      .ok (DBState.mk [MainRow.mk "n1" "T" "A" 0 0] [AssocRow.mk "t1" "n1"]
        [AssocRow.mk "l1" "n1"]) :=
  (add_to_index_spec emptyDB (Note.mk "n1" "T" "A" 0 ["t1"] ["l1"]) (by decide)
    (by decide)).2 (by decide) (by decide) (by decide)

/-- C1 counterexample: the claim as stated fails.  In the index state whose
primary table is empty but whose tags table holds an orphan row
`("t1", "n1")` (such states are reachable because `delete_from_index` never
cascades), inserting a well-formed note with the absent id `"n1"` and tag
`"t1"` raises `DBManagerException` instead of landing all rows. -/
theorem add_to_index_absent_id_can_fail :
    (DBState.mk [] [AssocRow.mk "t1" "n1"] []).main = [] ∧
    (Note.mk "n1" "T" "A" 0 ["t1"] []).tags.Nodup ∧
    add_to_index (DBState.mk [] [AssocRow.mk "t1" "n1"] [])
      (Note.mk "n1" "T" "A" 0 ["t1"] []) = .error .dbManagerException :=
  ⟨rfl, by decide, rfl⟩

/-- C2 (code bug): after `delete_from_index "n1"` on an index holding note
`"n1"` with one tag and one link, the tag row and the link row owned by
`"n1"` are still present (no `PRAGMA foreign_keys`, so the declared
`ON DELETE CASCADE` never fires), and `get_links "n1"` on the resulting state
raises `ProgrammingError` instead of returning the empty set. -/
theorem delete_from_index_no_cascade :
    delete_from_index (DBState.mk [MainRow.mk "n1" "T" "A" 0 0]
        [AssocRow.mk "t1" "n1"] [AssocRow.mk "l1" "n1"]) "n1" =
      .ok (DBState.mk [] [AssocRow.mk "t1" "n1"] [AssocRow.mk "l1" "n1"]) ∧
    get_links (DBState.mk [] [AssocRow.mk "t1" "n1"] [AssocRow.mk "l1" "n1"]) "n1" =
      .error .programmingError :=
  ⟨rfl, rfl⟩

/-- C3 (code bug): updating a note whose `zk_id` (`"n1"`) has no primary row
does NOT raise `DBManagerException`: the `UPDATE` matches zero rows without
error and — foreign keys being unenforced — the tag payload is inserted as an
orphan row, so the call silently succeeds. -/
theorem update_note_to_index_absent_id_silent :
    update_note_to_index emptyDB (Note.mk "n1" "T" "A" 0 ["t1"] []) 5 =
      .ok (DBState.mk [] [AssocRow.mk "t1" "n1"] []) :=
  rfl

/-- C4 (code bug): `get_links` raises `ProgrammingError` for EVERY state and
every id — the statement parameter is never bound — so it never returns the
stored link set, nor the empty set for an unknown id. -/
theorem get_links_always_raises (s : DBState) (zid : String) :
    get_links s zid = .error .programmingError :=
  rfl

/-- C5 (confirmed, silent-success policy): for every id absent from the
primary table, `delete_from_index` succeeds silently and returns the index
state completely unchanged — primary, tag and link tables included. -/
theorem delete_from_index_absent_id_noop (s : DBState) (zid : String)
    (h : ∀ r ∈ s.main, r.zk_id ≠ zid) :
    delete_from_index s zid = .ok s := by
  unfold delete_from_index
  have hf : s.main.filter (fun r => r.zk_id != zid) = s.main := by
    rw [List.filter_eq_self]
    intro a ha
    simpa using h a ha
  rw [hf]

/-- C5 witness: deleting the unknown id `"n2"` from an index holding only
`"n1"` returns the state unchanged. -/
theorem delete_from_index_absent_id_noop_witness :
    delete_from_index (DBState.mk [MainRow.mk "n1" "T" "A" 0 0] [] []) "n2" =
      .ok (DBState.mk [MainRow.mk "n1" "T" "A" 0 0] [] []) :=
  delete_from_index_absent_id_noop _ _ (by decide)

/-- C6 (confirmed): `create_tables` is idempotent — composing it with itself
equals a single call — and on a state where the three tables already exist it
raises no error and changes nothing, existing table contents included. -/
theorem create_tables_idempotent (s : SchemaState) :
    create_tables (create_tables s) = create_tables s ∧
    (tablesExist s → create_tables s = s) := by
  obtain ⟨m, t, l⟩ := s
  constructor
  · cases m <;> cases t <;> cases l <;> rfl
  · intro h
    unfold tablesExist at h
    obtain ⟨hm, ht, hl⟩ := h
    cases m
    · simp at hm
    cases t
    · simp at ht
    cases l
    · simp at hl
    rfl

/-- C6 witness: on a schema whose three tables exist (empty), `create_tables`
is the identity. -/
theorem create_tables_idempotent_witness :
    create_tables (SchemaState.mk (some []) (some []) (some [])) =
      SchemaState.mk (some []) (some []) (some []) :=
  (create_tables_idempotent (SchemaState.mk (some []) (some []) (some []))).2
    ⟨rfl, rfl, rfl⟩

/-- C7 (confirmed): a successful `update_note_to_index` of a note whose id is
present leaves every primary row with its `zk_id` and `creation_date`
unchanged (only `title`, `author`, `last_changed` may change), and every
primary, tag and link row owned by any other id is exactly preserved. -/
theorem update_note_to_index_frame (s : DBState) (n : Note) (d : Nat) (s2 : DBState)
    (hpres : ∃ r ∈ s.main, r.zk_id = n.zk_id)
    (h : update_note_to_index s n d = .ok s2) :
    s2.main.map (fun r => (r.zk_id, r.creation_date)) =
      s.main.map (fun r => (r.zk_id, r.creation_date)) ∧
    (∀ r : MainRow, r.zk_id ≠ n.zk_id → (r ∈ s2.main ↔ r ∈ s.main)) ∧
    (∀ r : AssocRow, r.zk_id ≠ n.zk_id → (r ∈ s2.tags ↔ r ∈ s.tags)) ∧
    (∀ r : AssocRow, r.zk_id ≠ n.zk_id → (r ∈ s2.links ↔ r ∈ s.links)) := by
  have hs2 := update_note_to_index_eq_of_ok s n d s2 h
  subst hs2
  refine ⟨?_, ?_, ?_, ?_⟩
  · rw [List.map_map]
    apply List.map_congr_left
    intro r hr
    simp only [Function.comp_apply]
    split <;> rfl
  · intro r hne
    simp only [List.mem_map]
    constructor
    · rintro ⟨r0, hr0, heq⟩
      by_cases hc : r0.zk_id == n.zk_id
      · rw [if_pos hc] at heq
        exfalso
        apply hne
        rw [← heq]
        simpa using hc
      · rw [if_neg hc] at heq
        exact heq ▸ hr0
    · intro hr
      refine ⟨r, hr, ?_⟩
      rw [if_neg (by simpa using hne)]
  · intro r hne
    rw [List.mem_append]
    constructor
    · rintro (h1 | h1)
      · exact (List.mem_filter.mp h1).1
      · exact absurd (tagsPayload_mem_zk_id n r h1) hne
    · intro h1
      exact Or.inl (List.mem_filter.mpr ⟨h1, by simpa using hne⟩)
  · intro r hne
    rw [List.mem_append]
    constructor
    · rintro (h1 | h1)
      · exact (List.mem_filter.mp h1).1
      · exact absurd (linksPayload_mem_zk_id n r h1) hne
    · intro h1
      exact Or.inl (List.mem_filter.mpr ⟨h1, by simpa using hne⟩)

/-- C7 witness: updating note `"n1"` in a two-note index keeps id and
creation date of both primary rows and preserves the row owned by `"n2"`. -/
theorem update_note_to_index_frame_witness :
    ((DBState.mk [MainRow.mk "n1" "T2" "C" 1 5, MainRow.mk "n2" "U" "B" 2 2]
        [AssocRow.mk "t" "n2"] []).main.map (fun r => (r.zk_id, r.creation_date)) =
      (DBState.mk [MainRow.mk "n1" "T" "A" 1 1, MainRow.mk "n2" "U" "B" 2 2]
        [AssocRow.mk "t" "n2"] []).main.map (fun r => (r.zk_id, r.creation_date))) ∧
    (∀ r : MainRow, r.zk_id ≠ "n1" →
      (r ∈ (DBState.mk [MainRow.mk "n1" "T2" "C" 1 5, MainRow.mk "n2" "U" "B" 2 2]
        [AssocRow.mk "t" "n2"] []).main ↔
       r ∈ (DBState.mk [MainRow.mk "n1" "T" "A" 1 1, MainRow.mk "n2" "U" "B" 2 2]
        [AssocRow.mk "t" "n2"] []).main)) ∧
    (∀ r : AssocRow, r.zk_id ≠ "n1" →
      (r ∈ (DBState.mk [MainRow.mk "n1" "T2" "C" 1 5, MainRow.mk "n2" "U" "B" 2 2]
        [AssocRow.mk "t" "n2"] []).tags ↔
       r ∈ (DBState.mk [MainRow.mk "n1" "T" "A" 1 1, MainRow.mk "n2" "U" "B" 2 2]
        [AssocRow.mk "t" "n2"] []).tags)) ∧
    (∀ r : AssocRow, r.zk_id ≠ "n1" →
      (r ∈ (DBState.mk [MainRow.mk "n1" "T2" "C" 1 5, MainRow.mk "n2" "U" "B" 2 2]
        [AssocRow.mk "t" "n2"] []).links ↔
       r ∈ (DBState.mk [MainRow.mk "n1" "T" "A" 1 1, MainRow.mk "n2" "U" "B" 2 2]
        [AssocRow.mk "t" "n2"] []).links)) :=
  update_note_to_index_frame
    (DBState.mk [MainRow.mk "n1" "T" "A" 1 1, MainRow.mk "n2" "U" "B" 2 2]
      [AssocRow.mk "t" "n2"] [])
    (Note.mk "n1" "T2" "C" 9 [] []) 5
    (DBState.mk [MainRow.mk "n1" "T2" "C" 1 5, MainRow.mk "n2" "U" "B" 2 2]
      [AssocRow.mk "t" "n2"] [])
    ⟨MainRow.mk "n1" "T" "A" 1 1, by simp, rfl⟩
    rfl

/-- C8 (confirmed, spec-modelled): for every well-formed vault scan and every
arrival permutation of it, the parallel reindex and the sequential reindex
produce index states with identical sets of primary rows (hence identical
id/title/author sets), identical tag associations and identical link
associations, though physical insertion order may differ. -/
theorem reindex_set_equivalent (notes arrival : List Note)
    (hperm : arrival.Perm notes) (hwf : scanWF notes) :
    (∀ r, r ∈ (multiprocess_index_vault arrival).main ↔ r ∈ (index_vault notes).main) ∧
    (∀ r, r ∈ (multiprocess_index_vault arrival).tags ↔ r ∈ (index_vault notes).tags) ∧
    (∀ r, r ∈ (multiprocess_index_vault arrival).links ↔ r ∈ (index_vault notes).links) := by
  obtain ⟨hids, hnod⟩ := hwf
  have hids2 : (arrival.map Note.zk_id).Nodup := ((hperm.map Note.zk_id).nodup_iff).mpr hids
  have hnod2 : ∀ n ∈ arrival, n.tags.Nodup ∧ n.links.Nodup :=
    fun n hn => hnod n (hperm.mem_iff.mp hn)
  rw [multiprocess_index_vault, index_vault,
    foldl_reindexInsert arrival emptyDB hids2 hnod2 (by simp [emptyDB]) (by simp [emptyDB])
      (by simp [emptyDB]),
    foldl_reindexInsert notes emptyDB hids hnod (by simp [emptyDB]) (by simp [emptyDB])
      (by simp [emptyDB])]
  refine ⟨?_, ?_, ?_⟩ <;> intro r
  · simp only [emptyDB, List.nil_append, List.mem_map]
    exact exists_congr (fun n => and_congr_left (fun _ => hperm.mem_iff))
  · simp only [emptyDB, List.nil_append, List.mem_flatMap]
    exact exists_congr (fun n => and_congr_left (fun _ => hperm.mem_iff))
  · simp only [emptyDB, List.nil_append, List.mem_flatMap]
    exact exists_congr (fun n => and_congr_left (fun _ => hperm.mem_iff))

/-- C8 witness: a concrete two-note vault indexed in the two possible orders
yields the same sets of primary, tag and link rows. -/
theorem reindex_set_equivalent_witness :
    (∀ r, r ∈ (multiprocess_index_vault
        [Note.mk "b" "TB" "Y" 2 [] [], Note.mk "a" "TA" "X" 1 ["t"] ["l"]]).main ↔
      r ∈ (index_vault
        [Note.mk "a" "TA" "X" 1 ["t"] ["l"], Note.mk "b" "TB" "Y" 2 [] []]).main) ∧
    (∀ r, r ∈ (multiprocess_index_vault
        [Note.mk "b" "TB" "Y" 2 [] [], Note.mk "a" "TA" "X" 1 ["t"] ["l"]]).tags ↔
      r ∈ (index_vault
        [Note.mk "a" "TA" "X" 1 ["t"] ["l"], Note.mk "b" "TB" "Y" 2 [] []]).tags) ∧
    (∀ r, r ∈ (multiprocess_index_vault
        [Note.mk "b" "TB" "Y" 2 [] [], Note.mk "a" "TA" "X" 1 ["t"] ["l"]]).links ↔
      r ∈ (index_vault
        [Note.mk "a" "TA" "X" 1 ["t"] ["l"], Note.mk "b" "TB" "Y" 2 [] []]).links) :=
  reindex_set_equivalent
    [Note.mk "a" "TA" "X" 1 ["t"] ["l"], Note.mk "b" "TB" "Y" 2 [] []]
    [Note.mk "b" "TB" "Y" 2 [] [], Note.mk "a" "TA" "X" 1 ["t"] ["l"]]
    (List.Perm.swap _ _ _) ⟨by decide, by decide⟩

/-- C9 (confirmed): when the underlying tool exits non-zero, `run_and_handle`
raises `GitException` (an error result, never a silent success) whose message
contains the diagnostic output of the tool verbatim; when the tool exits
zero, no error is raised and the completed process is returned. -/
theorem run_and_handle_spec (command comment : String) (res : CompletedProcess) :
    (res.returncode ≠ 0 →
      run_and_handle command comment res =
        .error (gitErrorMessage command res.returncode res.stdout comment) ∧
      ∃ p q, (gitErrorMessage command res.returncode res.stdout comment).data =
        p ++ (res.stdout.data ++ q)) ∧
    (res.returncode = 0 → run_and_handle command comment res = .ok res) := by
  constructor
  · intro hne
    constructor
    · unfold run_and_handle
      rw [if_pos (by simpa using hne)]
    · unfold gitErrorMessage
      by_cases hc : comment == ""
      · rw [if_pos hc]
        refine ⟨(gitErrorHead command res.returncode).data, [], ?_⟩
        simp [String.data_append]
      · rw [if_neg hc]
        refine ⟨(gitErrorHead command res.returncode).data, ("\n\n" ++ comment).data, ?_⟩
        simp [String.data_append]
  · intro h0
    unfold run_and_handle
    rw [if_neg (by simp [h0])]

/-- C9 witness: a `git push` exiting with code 1 raises `GitException` whose
message embeds the captured diagnostic output. -/
theorem run_and_handle_spec_witness :
    (run_and_handle "git push" "" (CompletedProcess.mk 1 "fatal: err") =
      .error (gitErrorMessage "git push" 1 "fatal: err" "") ∧
    ∃ p q, (gitErrorMessage "git push" 1 "fatal: err" "").data =
      p ++ (("fatal: err" : String).data ++ q)) :=
  (run_and_handle_spec "git push" "" (CompletedProcess.mk 1 "fatal: err")).1 (by decide)

/-- C10 (confirmed): the `reindex` subcommand handler invokes the multiprocess
reindex exactly when `no_multi_core` is true, and the sequential reindex
exactly when it is false — the flag named `no-multi-core` is indeed the one
that selects the multi-core implementation. -/
theorem reindex_flag_selects_multiprocess (args : ReindexArgs) :
    (reindexDispatch args = .multiprocessIndexVault ↔ args.no_multi_core = true) ∧
    (reindexDispatch args = .indexVault ↔ args.no_multi_core = false) := by
  obtain ⟨b⟩ := args
  cases b <;> simp [reindexDispatch]

/-- C10 witness: with `no_multi_core` set, the handler calls
`multiprocess_index_vault`. -/
theorem reindex_flag_selects_multiprocess_witness :
    reindexDispatch (ReindexArgs.mk true) = .multiprocessIndexVault :=
  ((reindex_flag_selects_multiprocess (ReindexArgs.mk true)).1).mpr rfl
